import Mathlib

/-!
PSP Player: syscall registration, user exports and the controller latch

A shallow embedding of

* `R4000Cpu::R4000Cpu`, `RegisterSyscall`, `RegisterUserExports`,
  `LookupUserExport`, `Cleanup` and `SetupGame` from
  `Noxa.Emulation.Psp.Cpu.R4000Ultra/R4000Cpu.cpp`;
* `sceCtrl::Clear`, `UpdateButtons`, `sceCtrlPeekBufferPositive`,
  `sceCtrlPeekBufferNegative`, `sceCtrlPeekLatch` and `sceCtrlReadLatch` from
  `Noxa.Emulation.Psp.Bios.NativeHLE/Modules/sceCtrl.cpp`.

Managed objects become explicit state records, managed arrays become lists
whose element stores are bounds-checked, exceptions raised by the runtime are
an explicit outcome, and 32-bit machine words are naturals/integers with
explicit wrapping.
-/

namespace Noxa

/-! ## Managed runtime -/

/-- Exceptions the managed runtime raises in the embedded code. -/
inductive ManagedException where
  | IndexOutOfRangeException
  | ArgumentException
  deriving DecidableEq, Repr

/-- How a call ends: it returns a value, or an exception leaves it. -/
inductive Outcome (α : Type) where
  | returned (value : α)
  | threw (e : ManagedException)
  deriving DecidableEq, Repr

/-- Two's complement wrap of an integer into the range of a 32-bit `int`. -/
def wrapInt32 (x : Int) : Int :=
  (x + 2147483648) % 4294967296 - 2147483648

/-- Element store `a[ i ] = v` on a managed array: the runtime checks
`0 <= i < a->Length`; `none` stands for `IndexOutOfRangeException`. -/
def storeElem {α : Type} (a : List α) (i : Int) (v : α) : Option (List α) :=
  if 0 ≤ i ∧ i < (a.length : Int) then some (a.set i.toNat v) else none

/-- Element read `a[ i ]` of an in-range slot (`none` when out of range). -/
def loadElem {α : Type} (a : List α) (i : Int) : Option α :=
  if 0 ≤ i then a[i.toNat]? else none

/-- `Dictionary<uint, uint>` as an association list in insertion order. -/
abbrev Dictionary := List (Nat × Nat)

/-- `Dictionary::ContainsKey`. -/
def Dictionary.ContainsKey (d : Dictionary) (key : Nat) : Bool :=
  d.any (fun p => p.1 == key)

/-- `Dictionary::Add`: adding a key that is already present raises
`ArgumentException` (`none`). -/
def Dictionary.Add (d : Dictionary) (key value : Nat) : Option Dictionary :=
  if Dictionary.ContainsKey d key then none else some (d ++ [(key, value)])

/-- `Dictionary::TryGetValue`: the value stored under `key`, if any. -/
def Dictionary.TryGetValue (d : Dictionary) (key : Nat) : Option Nat :=
  (d.find? (fun p => p.1 == key)).map (fun p => p.2)

/-! ## R4000Cpu -/

/-- Handle of a host BIOS function (`BiosFunction^`). -/
abbrev BiosFunction := Nat

/-- Handle of an emitted managed marshalling shim (`BiosShim^`). -/
abbrev BiosShim := Nat

/-- The collaborators `RegisterSyscall` calls into: the BIOS function
directory (`_emu->Bios->FindFunction`, `none` for `nullptr`) and the two shim
emitters, already applied to the memory system and the register file. -/
structure BiosEnv where
  FindFunction : Nat → Option BiosFunction
  EmitShim : BiosFunction → BiosShim
  EmitShimN : BiosFunction → Nat

/-- One entry of `module->Exports`. -/
structure StubExport where
  NID : Nat
  Address : Nat
  IsSystem : Bool
  deriving DecidableEq, Repr

/-- The fields of `R4000Cpu` that the embedded methods read or write. -/
structure R4000Cpu where
  _lastSyscall : Int
  _syscalls : List (Option BiosFunction)
  _syscallShims : List (Option BiosShim)
  _syscallShimsN : List Nat
  _userExports : Dictionary
  _hasExecuted : Bool
  deriving DecidableEq, Repr

/-- State set up by the constructor `R4000Cpu::R4000Cpu`. -/
def R4000Cpu.ctor : R4000Cpu where
  _lastSyscall := -1
  _syscalls := List.replicate 1024 none
  _syscallShims := List.replicate 1024 none
  _syscallShimsN := List.replicate 1024 0
  _userExports := []
  _hasExecuted := false

/-- `R4000Cpu::RegisterSyscall`. -/
def RegisterSyscall (bios : BiosEnv) (cpu : R4000Cpu) (nid : Nat) :
    R4000Cpu × Outcome Int :=
  match bios.FindFunction nid with
  | none => (cpu, Outcome.returned (-1))
  | some function =>
    let sid := wrapInt32 (cpu._lastSyscall + 1)
    let cpu1 := { cpu with _lastSyscall := sid }
    match storeElem cpu1._syscalls sid (some function) with
    | none => (cpu1, Outcome.threw ManagedException.IndexOutOfRangeException)
    | some syscalls =>
      let cpu2 := { cpu1 with _syscalls := syscalls }
      match storeElem cpu2._syscallShims sid (some (bios.EmitShim function)) with
      | none => (cpu2, Outcome.threw ManagedException.IndexOutOfRangeException)
      | some shims =>
        let cpu3 := { cpu2 with _syscallShims := shims }
        match storeElem cpu3._syscallShimsN sid (bios.EmitShimN function) with
        | none => (cpu3, Outcome.threw ManagedException.IndexOutOfRangeException)
        | some shimsN =>
          ({ cpu3 with _syscallShimsN := shimsN }, Outcome.returned sid)

/-- The `for each` loop of `RegisterUserExports` over the remaining exports:
the dictionary reached and whether the loop ran to its end (`false`: an
`Add` raised `ArgumentException`, leaving the earlier additions in place). -/
def registerExportsLoop (d : Dictionary) : List StubExport → Dictionary × Bool
  | [] => (d, true)
  | ex :: rest =>
    if ex.IsSystem == true then registerExportsLoop d rest
    else
      match Dictionary.Add d ex.NID ex.Address with
      | none => (d, false)
      | some d1 => registerExportsLoop d1 rest

/-- `R4000Cpu::RegisterUserExports`, applied to `module->Exports`. -/
def RegisterUserExports (cpu : R4000Cpu) (Exports : List StubExport) :
    R4000Cpu × Outcome Unit :=
  let r := registerExportsLoop cpu._userExports Exports
  ({ cpu with _userExports := r.1 },
    if r.2 then Outcome.returned () else Outcome.threw ManagedException.ArgumentException)

/-- `R4000Cpu::LookupUserExport`. -/
def LookupUserExport (cpu : R4000Cpu) (nid : Nat) : Nat :=
  match Dictionary.TryGetValue cpu._userExports nid with
  | some address => address
  | none => 0

/-- `R4000Cpu::SetupGame`. -/
def SetupGame (cpu : R4000Cpu) : R4000Cpu :=
  if cpu._hasExecuted == false then { cpu with _hasExecuted := true } else cpu

/-- The CPU after a sequence of `RegisterSyscall` calls, in order; a caller
that catches an exception goes on with the state the call left. -/
def RegisterSyscalls (bios : BiosEnv) (cpu : R4000Cpu) : List Nat → R4000Cpu
  | [] => cpu
  | nid :: rest => RegisterSyscalls bios (RegisterSyscall bios cpu nid).1 rest

/-- Number of NIDs of a sequence that the BIOS directory finds. -/
def foundCount (bios : BiosEnv) (nids : List Nat) : Nat :=
  (nids.filter (fun nid => (bios.FindFunction nid).isSome)).length

/-- A directory that finds every NID (the function handle is the NID). -/
def fullBios : BiosEnv where
  FindFunction := fun nid => some nid
  EmitShim := fun f => f
  EmitShimN := fun f => f

/-- The shape the constructor gives the CPU and every method keeps: three
tables of 1024 slots and a `_lastSyscall` within the range of `int`. -/
def R4000Cpu.WellFormed (cpu : R4000Cpu) : Prop :=
  cpu._syscalls.length = 1024 ∧ cpu._syscallShims.length = 1024 ∧
  cpu._syscallShimsN.length = 1024 ∧
  -2147483648 ≤ cpu._lastSyscall ∧ cpu._lastSyscall < 2147483648

/-! ## sceCtrl -/

/-- Bitwise complement `~x` of a 32-bit unsigned word. -/
def not32 (x : Nat) : Nat := (x ^^^ 4294967295) % 4294967296

/-- Bit pattern of a 32-bit `int` as an unsigned word. -/
def toWord (v : Int) : Nat := (v % 4294967296).toNat

/-- The cast `( byte )v` of an `int`: its low eight bits. -/
def toByte (v : Int) : Nat := (v % 256).toNat

/-- Host memory as seen through `Translate`: one byte per address. -/
abbrev Memory := Nat → Nat

/-- Store of one byte, `*p = v`. -/
def writeByte (m : Memory) (p : Nat) (v : Nat) : Memory :=
  fun a => if a = p then v % 256 else m a

/-- Store of a 32-bit word, `*( ( int* )p ) = w`, little-endian. -/
def writeInt32 (m : Memory) (p : Nat) (w : Nat) : Memory :=
  writeByte (writeByte (writeByte (writeByte m p w) (p + 1) (w / 256))
    (p + 2) (w / 65536)) (p + 3) (w / 16777216)

/-- Load of the 32-bit little-endian word at `p`. -/
def readInt32 (m : Memory) (p : Nat) : Nat :=
  m p + 256 * m (p + 1) + 65536 * m (p + 2) + 16777216 * m (p + 3)

/-- The file-level button words of `sceCtrl.cpp` and whether `_device` is set. -/
structure sceCtrl where
  _makedButtons : Nat
  _breakedButtons : Nat
  _pressedButtons : Nat
  _releasedButtons : Nat
  hasDevice : Bool
  deriving DecidableEq, Repr

/-- What one iteration of a buffer read sees: the device after `Poll()` and
`Environment::TickCount`. -/
structure PadSample where
  Buttons : Nat
  AnalogX : Int
  AnalogY : Int
  TickCount : Int
  deriving DecidableEq, Repr

/-- `sceCtrl::Clear`, on the button words. -/
def sceCtrl.Clear (c : sceCtrl) : sceCtrl :=
  { c with _makedButtons := 0, _breakedButtons := 0, _pressedButtons := 0,
           _releasedButtons := 0 }

/-- `sceCtrl::UpdateButtons`. -/
def UpdateButtons (c : sceCtrl) (buttons : Nat) : sceCtrl :=
  let oldPressed := c._pressedButtons
  let pressed := buttons % 4294967296
  let stillPressed := pressed &&& oldPressed
  { c with
    _pressedButtons := pressed
    _releasedButtons := not32 pressed
    _makedButtons := pressed &&& not32 stillPressed
    _breakedButtons := oldPressed &&& not32 stillPressed }

/-- The expression `( int )( ( ( ( float )a / max ) + 0.5f ) * 256 )` with
`max = ushort::MaxValue`, evaluated in exact arithmetic; the cast to `int`
truncates toward zero. -/
def scaleAnalog (a : Int) : Int :=
  let v : ℚ := ((a : ℚ) / 65535 + 1 / 2) * 256
  if 0 ≤ v then ⌊v⌋ else ⌈v⌉

/-- Body of the `for` loop of `sceCtrlPeekBufferPositive`, iteration `n`,
with `p0` the translated `pad_data`. -/
def peekPositiveStep (input : Nat → PadSample) (p0 : Nat)
    (acc : sceCtrl × Memory) (n : Nat) : sceCtrl × Memory :=
  let buttons := (input n).Buttons
  let c := UpdateButtons acc.1 buttons
  let analogX := scaleAnalog (input n).AnalogX
  let analogY := scaleAnalog (input n).AnalogY
  let p := p0 + 16 * n
  let m1 := writeInt32 acc.2 p (toWord (input n).TickCount)
  let m2 := writeInt32 m1 (p + 4) (buttons % 4294967296)
  let m3 := writeByte m2 (p + 8) (toByte analogX)
  let m4 := writeByte m3 (p + 9) (toByte analogY)
  (c, m4)

/-- Body of the `for` loop of `sceCtrlPeekBufferNegative`, iteration `n`. -/
def peekNegativeStep (input : Nat → PadSample) (p0 : Nat)
    (acc : sceCtrl × Memory) (n : Nat) : sceCtrl × Memory :=
  let buttons := (input n).Buttons
  let c := UpdateButtons acc.1 buttons
  let analogX := (input n).AnalogX
  let analogY := (input n).AnalogY
  let analogX := if analogX = 0 then scaleAnalog analogX else analogX
  let analogY := if analogY = 0 then scaleAnalog analogY else analogY
  let p := p0 + 16 * n
  let m1 := writeInt32 acc.2 p (toWord (input n).TickCount)
  let m2 := writeInt32 m1 (p + 4) (not32 (buttons % 4294967296))
  let m3 := writeByte m2 (p + 8) (toByte analogX)
  let m4 := writeByte m3 (p + 9) (toByte analogY)
  (c, m4)

/-- `sceCtrl::sceCtrlPeekBufferPositive`: the button words, the memory and
the value returned. `Translate` is the guest-to-host address translation. -/
def sceCtrlPeekBufferPositive (Translate : Int → Nat) (input : Nat → PadSample)
    (c : sceCtrl) (memory : Memory) (pad_data count : Int) :
    sceCtrl × Memory × Int :=
  if c.hasDevice = false then (c, memory, 0)
  else if pad_data ≠ 0 then
    let r := (List.range count.toNat).foldl
      (peekPositiveStep input (Translate pad_data)) (c, memory)
    (r.1, r.2, count)
  else (c, memory, count)

/-- `sceCtrl::sceCtrlPeekBufferNegative`. -/
def sceCtrlPeekBufferNegative (Translate : Int → Nat) (input : Nat → PadSample)
    (c : sceCtrl) (memory : Memory) (pad_data count : Int) :
    sceCtrl × Memory × Int :=
  if c.hasDevice = false then (c, memory, 0)
  else if pad_data ≠ 0 then
    let r := (List.range count.toNat).foldl
      (peekNegativeStep input (Translate pad_data)) (c, memory)
    (r.1, r.2, count)
  else (c, memory, count)

/-- The four stores shared by `sceCtrlPeekLatch` and `sceCtrlReadLatch`:
`uiMake`, `uiBreak`, `uiPress`, `uiRelease` at `ptr`, `ptr + 1`, ... -/
def writeLatch (c : sceCtrl) (memory : Memory) (ptr : Nat) : Memory :=
  let m1 := writeInt32 memory ptr c._makedButtons
  let m2 := writeInt32 m1 (ptr + 4) c._breakedButtons
  let m3 := writeInt32 m2 (ptr + 8) c._pressedButtons
  writeInt32 m3 (ptr + 12) c._releasedButtons

/-- `sceCtrl::sceCtrlPeekLatch`. -/
def sceCtrlPeekLatch (Translate : Int → Nat) (c : sceCtrl) (memory : Memory)
    (latch_data : Int) : sceCtrl × Memory × Int :=
  (c, writeLatch c memory (Translate latch_data), 0)

/-- `sceCtrl::sceCtrlReadLatch`. -/
def sceCtrlReadLatch (Translate : Int → Nat) (c : sceCtrl) (memory : Memory)
    (latch_data : Int) : sceCtrl × Memory × Int :=
  ({ c with _makedButtons := 0, _breakedButtons := 0 },
    writeLatch c memory (Translate latch_data), 0)

/-- The button words after a run of `UpdateButtons` samples, in order. -/
def UpdateButtonsAll (c : sceCtrl) (samples : List Nat) : sceCtrl :=
  samples.foldl UpdateButtons c

/-- Zero-filled memory. -/
def zeroMemory : Memory := fun _ => 0

/-- Identity address translation. -/
def idTranslate : Int → Nat := Int.toNat

/-- The button words right after a `sceCtrlReadLatch` on cleared words, with a
device attached. -/
def latchJustRead : sceCtrl :=
  (sceCtrlReadLatch idTranslate (sceCtrl.Clear ⟨0, 0, 0, 0, true⟩) zeroMemory 64).1

/-- The field `uiMake` of the `SceCtrlLatch` at host address `ptr`. -/
def uiMake (memory : Memory) (ptr : Nat) : Nat := readInt32 memory ptr

/-- The field `uiBreak` of the `SceCtrlLatch` at host address `ptr`. -/
def uiBreak (memory : Memory) (ptr : Nat) : Nat := readInt32 memory (ptr + 4)

/-- A device that reports the same state at every poll. -/
def constInput (s : PadSample) : Nat → PadSample := fun _ => s

/-! ## Facts about the 32-bit words -/

theorem testBit_not32 (x i : Nat) :
    (not32 x).testBit i = (decide (i < 32) && !x.testBit i) := by
  have h1 : (4294967295 : Nat) = 2 ^ 32 - 1 := by norm_num
  have h2 : (4294967296 : Nat) = 2 ^ 32 := by norm_num
  unfold not32
  rw [h1, h2, Nat.testBit_mod_two_pow, Nat.testBit_xor, Nat.testBit_two_pow_sub_one]
  by_cases h : i < 32 <;> simp [h]

theorem not32_lt (x : Nat) : not32 x < 4294967296 := by
  unfold not32
  exact Nat.mod_lt _ (by norm_num)

theorem and_not32_and (b old : Nat) :
    b &&& not32 (b &&& old) = b &&& not32 old := by
  apply Nat.eq_of_testBit_eq
  intro i
  simp only [Nat.testBit_and, testBit_not32]
  cases b.testBit i <;> cases old.testBit i <;> simp

theorem and_not32_and_right (b old : Nat) :
    old &&& not32 (b &&& old) = old &&& not32 b := by
  apply Nat.eq_of_testBit_eq
  intro i
  simp only [Nat.testBit_and, testBit_not32]
  cases b.testBit i <;> cases old.testBit i <;> simp

theorem scaleAnalog_zero : scaleAnalog 0 = 128 := by
  unfold scaleAnalog
  norm_num

theorem scaleAnalog_one : scaleAnalog 1 = 128 := by
  unfold scaleAnalog
  norm_num [Int.floor_eq_iff]

/-! ## sceCtrl: button words and latch -/

/-- C8: for every prior state and every 32-bit button mask `b`,
`UpdateButtons(b)` leaves pressed = `b`, released = `~b`,
make = `b & ~old` and break = `old & ~b`, where `old` is the pressed word
before the call; bit by bit, make holds exactly the buttons down now that were
not down before and break exactly the buttons down before that are not down
now. -/
theorem UpdateButtons_make_break (c : sceCtrl) (b : Nat) (hb : b < 4294967296) :
    (UpdateButtons c b)._pressedButtons = b ∧
    (UpdateButtons c b)._releasedButtons = not32 b ∧
    (UpdateButtons c b)._makedButtons = b &&& not32 c._pressedButtons ∧
    (UpdateButtons c b)._breakedButtons = c._pressedButtons &&& not32 b ∧
    (∀ i, i < 32 → (UpdateButtons c b)._releasedButtons.testBit i = !b.testBit i) ∧
    (∀ i, i < 32 → (UpdateButtons c b)._makedButtons.testBit i
        = (b.testBit i && !c._pressedButtons.testBit i)) ∧
    (∀ i, i < 32 → (UpdateButtons c b)._breakedButtons.testBit i
        = (c._pressedButtons.testBit i && !b.testBit i)) := by
  have hmod : b % 4294967296 = b := Nat.mod_eq_of_lt hb
  have hmk : (UpdateButtons c b)._makedButtons = b &&& not32 c._pressedButtons := by
    simp only [UpdateButtons, hmod]
    exact and_not32_and b c._pressedButtons
  have hbk : (UpdateButtons c b)._breakedButtons = c._pressedButtons &&& not32 b := by
    simp only [UpdateButtons, hmod]
    exact and_not32_and_right b c._pressedButtons
  have hrl : (UpdateButtons c b)._releasedButtons = not32 b := by
    simp only [UpdateButtons, hmod]
  refine ⟨by simp only [UpdateButtons, hmod], hrl, hmk, hbk, ?_, ?_, ?_⟩
  · intro i hi
    rw [hrl, testBit_not32]
    simp [hi]
  · intro i hi
    rw [hmk, Nat.testBit_and, testBit_not32]
    simp [hi]
  · intro i hi
    rw [hbk, Nat.testBit_and, testBit_not32]
    simp [hi]

/-- Witness of C8: with buttons 1 and 2 down before (`old = 3`) and buttons 2
and 4 down now (`b = 6`). -/
theorem UpdateButtons_make_break_witness :
    (6 : Nat) < 4294967296 ∧
    (UpdateButtons ⟨0, 0, 3, 0, true⟩ 6)._pressedButtons = 6 ∧
    (UpdateButtons ⟨0, 0, 3, 0, true⟩ 6)._makedButtons = 6 &&& not32 3 ∧
    (UpdateButtons ⟨0, 0, 3, 0, true⟩ 6)._breakedButtons = 3 &&& not32 6 :=
  ⟨by decide,
   (UpdateButtons_make_break ⟨0, 0, 3, 0, true⟩ 6 (by decide)).1,
   (UpdateButtons_make_break ⟨0, 0, 3, 0, true⟩ 6 (by decide)).2.2.1,
   (UpdateButtons_make_break ⟨0, 0, 3, 0, true⟩ 6 (by decide)).2.2.2.1⟩

/-- C5: between two `sceCtrlReadLatch` calls the samples 0x4000, 0, 0 press
button 14 (first sample) and release it (second sample), yet the second
`sceCtrlReadLatch` writes `uiMake = 0` and `uiBreak = 0`: `UpdateButtons`
overwrites the make/break words with those of the last sample only. -/
theorem sceCtrlReadLatch_keeps_last_sample_only :
    (latchJustRead)._pressedButtons.testBit 14 = false ∧
    (UpdateButtonsAll latchJustRead [16384])._pressedButtons.testBit 14 = true ∧
    (UpdateButtonsAll latchJustRead [16384, 0])._pressedButtons.testBit 14 = false ∧
    UpdateButtonsAll latchJustRead [16384, 0, 0]
      = UpdateButtons (UpdateButtons (UpdateButtons latchJustRead 16384) 0) 0 ∧
    uiMake (sceCtrlReadLatch idTranslate (UpdateButtonsAll latchJustRead [16384, 0, 0])
      zeroMemory 64).2.1 (idTranslate 64) = 0 ∧
    uiBreak (sceCtrlReadLatch idTranslate (UpdateButtonsAll latchJustRead [16384, 0, 0])
      zeroMemory 64).2.1 (idTranslate 64) = 0 := by
  decide

theorem peek_fold_state_agree (input : Nat → PadSample) (p0 : Nat) (l : List Nat) :
    ∀ (c : sceCtrl) (m1 m2 : Memory),
      (l.foldl (peekPositiveStep input p0) (c, m1)).1
        = (l.foldl (peekNegativeStep input p0) (c, m2)).1 := by
  induction l with
  | nil => intro c m1 m2; rfl
  | cons n rest ih =>
    intro c m1 m2
    simp only [List.foldl_cons]
    exact ih _ _ _

/-- The part of the comparison of the two buffer peeks that does hold: the
value returned and the button words they leave are the same. -/
theorem sceCtrlPeekBuffer_return_and_buttons_agree (Translate : Int → Nat)
    (input : Nat → PadSample) (c : sceCtrl) (memory : Memory) (pad_data count : Int) :
    (sceCtrlPeekBufferPositive Translate input c memory pad_data count).2.2
      = (sceCtrlPeekBufferNegative Translate input c memory pad_data count).2.2 ∧
    (sceCtrlPeekBufferPositive Translate input c memory pad_data count).1
      = (sceCtrlPeekBufferNegative Translate input c memory pad_data count).1 := by
  unfold sceCtrlPeekBufferPositive sceCtrlPeekBufferNegative
  by_cases hd : c.hasDevice = false
  · simp [hd]
  · by_cases hp : pad_data = 0
    · simp [hd, hp]
    · have hd1 : c.hasDevice = true := by simpa using hd
      simp only [hd1, hp, ne_eq, not_false_eq_true, if_true, if_false, true_and,
        Bool.true_eq_false]
      exact peek_fold_state_agree input _ _ c memory memory

/-- C6: with the stick at `AnalogX = 1` the two buffer peeks write different
bytes at offset 8 of the record: `sceCtrlPeekBufferPositive` always rescales
the axis (128), `sceCtrlPeekBufferNegative` rescales it only when it is 0 and
otherwise stores its low byte as it is (1). -/
theorem sceCtrlPeekBufferNegative_analog_differs :
    (sceCtrlPeekBufferPositive idTranslate (constInput ⟨0, 1, 0, 0⟩)
      ⟨0, 0, 0, 0, true⟩ zeroMemory 64 1).2.1 (idTranslate 64 + 8) = 128 ∧
    (sceCtrlPeekBufferNegative idTranslate (constInput ⟨0, 1, 0, 0⟩)
      ⟨0, 0, 0, 0, true⟩ zeroMemory 64 1).2.1 (idTranslate 64 + 8) = 1 := by
  constructor
  · simp [sceCtrlPeekBufferPositive, peekPositiveStep, List.range_succ, constInput,
      scaleAnalog_one, scaleAnalog_zero, writeByte, writeInt32, idTranslate, toByte]
  · decide

/-! ## R4000Cpu: syscall registration -/

theorem wrapInt32_of_range (x : Int) (h0 : -2147483648 ≤ x) (h1 : x < 2147483648) :
    wrapInt32 x = x := by
  unfold wrapInt32
  omega

theorem wrapInt32_range (x : Int) :
    -2147483648 ≤ wrapInt32 x ∧ wrapInt32 x < 2147483648 := by
  unfold wrapInt32
  omega

theorem wrapInt32_succ (x c : Int) :
    wrapInt32 (wrapInt32 (x + 1) + c) = wrapInt32 (x + (c + 1)) := by
  unfold wrapInt32
  omega

theorem ctor_wellFormed : R4000Cpu.ctor.WellFormed :=
  ⟨List.length_replicate _ _, List.length_replicate _ _, List.length_replicate _ _,
    by decide, by decide⟩

theorem RegisterSyscall_not_found (bios : BiosEnv) (cpu : R4000Cpu) (nid : Nat)
    (h : bios.FindFunction nid = none) :
    RegisterSyscall bios cpu nid = (cpu, Outcome.returned (-1)) := by
  simp [RegisterSyscall, h]

theorem RegisterSyscall_found_in_range (bios : BiosEnv) (cpu : R4000Cpu) (nid : Nat)
    (f : BiosFunction) (hf : bios.FindFunction nid = some f) (hw : cpu.WellFormed)
    (h0 : 0 ≤ wrapInt32 (cpu._lastSyscall + 1))
    (h1 : wrapInt32 (cpu._lastSyscall + 1) < 1024) :
    RegisterSyscall bios cpu nid =
      ({ cpu with
          _lastSyscall := wrapInt32 (cpu._lastSyscall + 1)
          _syscalls := cpu._syscalls.set (wrapInt32 (cpu._lastSyscall + 1)).toNat (some f)
          _syscallShims := cpu._syscallShims.set
            (wrapInt32 (cpu._lastSyscall + 1)).toNat (some (bios.EmitShim f))
          _syscallShimsN := cpu._syscallShimsN.set
            (wrapInt32 (cpu._lastSyscall + 1)).toNat (bios.EmitShimN f) },
        Outcome.returned (wrapInt32 (cpu._lastSyscall + 1))) := by
  obtain ⟨l1, l2, l3, -, -⟩ := hw
  simp [RegisterSyscall, hf, storeElem, l1, l2, l3, h0, h1]

theorem RegisterSyscall_found_out_of_range (bios : BiosEnv) (cpu : R4000Cpu) (nid : Nat)
    (f : BiosFunction) (hf : bios.FindFunction nid = some f) (hw : cpu.WellFormed)
    (h : ¬ (0 ≤ wrapInt32 (cpu._lastSyscall + 1) ∧ wrapInt32 (cpu._lastSyscall + 1) < 1024)) :
    RegisterSyscall bios cpu nid =
      ({ cpu with _lastSyscall := wrapInt32 (cpu._lastSyscall + 1) },
        Outcome.threw ManagedException.IndexOutOfRangeException) := by
  obtain ⟨l1, l2, l3, -, -⟩ := hw
  simp [RegisterSyscall, hf, storeElem, l1, h]

theorem RegisterSyscall_wellFormed (bios : BiosEnv) (cpu : R4000Cpu) (nid : Nat)
    (hw : cpu.WellFormed) : (RegisterSyscall bios cpu nid).1.WellFormed := by
  cases hf : bios.FindFunction nid with
  | none => rw [RegisterSyscall_not_found bios cpu nid hf]; exact hw
  | some f =>
    have hr := wrapInt32_range (cpu._lastSyscall + 1)
    by_cases h : 0 ≤ wrapInt32 (cpu._lastSyscall + 1) ∧ wrapInt32 (cpu._lastSyscall + 1) < 1024
    · rw [RegisterSyscall_found_in_range bios cpu nid f hf hw h.1 h.2]
      obtain ⟨l1, l2, l3, -, -⟩ := hw
      simp [R4000Cpu.WellFormed, l1, l2, l3, hr.1, hr.2]
    · rw [RegisterSyscall_found_out_of_range bios cpu nid f hf hw h]
      obtain ⟨l1, l2, l3, -, -⟩ := hw
      simp [R4000Cpu.WellFormed, l1, l2, l3, hr.1, hr.2]

theorem RegisterSyscall_lastSyscall (bios : BiosEnv) (cpu : R4000Cpu) (nid : Nat) :
    (RegisterSyscall bios cpu nid).1._lastSyscall =
      if (bios.FindFunction nid).isSome then wrapInt32 (cpu._lastSyscall + 1)
      else cpu._lastSyscall := by
  unfold RegisterSyscall
  cases bios.FindFunction nid with
  | none => simp
  | some f =>
    simp only [Option.isSome_some, if_true]
    split
    · rfl
    · split
      · rfl
      · split <;> rfl

theorem foundCount_cons (bios : BiosEnv) (nid : Nat) (rest : List Nat) :
    foundCount bios (nid :: rest) =
      (if (bios.FindFunction nid).isSome then 1 else 0) + foundCount bios rest := by
  unfold foundCount
  by_cases h : (bios.FindFunction nid).isSome = true
  · simp [List.filter_cons, h]; omega
  · simp [List.filter_cons, h]

theorem RegisterSyscalls_invariant (bios : BiosEnv) (nids : List Nat) :
    ∀ cpu : R4000Cpu, cpu.WellFormed →
      (RegisterSyscalls bios cpu nids).WellFormed ∧
      (RegisterSyscalls bios cpu nids)._lastSyscall =
        wrapInt32 (cpu._lastSyscall + (foundCount bios nids : Int)) := by
  induction nids with
  | nil =>
    intro cpu hw
    refine ⟨hw, ?_⟩
    simp only [RegisterSyscalls, foundCount, List.filter_nil, List.length_nil,
      Nat.cast_zero, add_zero]
    exact (wrapInt32_of_range _ hw.2.2.2.1 hw.2.2.2.2).symm
  | cons nid rest ih =>
    intro cpu hw
    have hw1 := RegisterSyscall_wellFormed bios cpu nid hw
    obtain ⟨hwr, hl⟩ := ih _ hw1
    refine ⟨hwr, ?_⟩
    simp only [RegisterSyscalls]
    rw [hl, RegisterSyscall_lastSyscall, foundCount_cons]
    by_cases h : (bios.FindFunction nid).isSome = true
    · simp only [h, if_true, Nat.cast_add, Nat.cast_one]
      rw [wrapInt32_succ]
      congr 1
      omega
    · simp only [h, Nat.cast_add]
      simp

theorem RegisterSyscalls_ctor (bios : BiosEnv) (nids : List Nat) :
    (RegisterSyscalls bios R4000Cpu.ctor nids).WellFormed ∧
    (RegisterSyscalls bios R4000Cpu.ctor nids)._lastSyscall =
      wrapInt32 ((foundCount bios nids : Int) - 1) := by
  obtain ⟨h1, h2⟩ := RegisterSyscalls_invariant bios nids R4000Cpu.ctor ctor_wellFormed
  refine ⟨h1, ?_⟩
  rw [h2]
  have h3 : R4000Cpu.ctor._lastSyscall + (foundCount bios nids : Int)
      = (foundCount bios nids : Int) - 1 := by
    show (-1 : Int) + (foundCount bios nids : Int) = (foundCount bios nids : Int) - 1
    omega
  rw [h3]

theorem foundCount_fullBios (nids : List Nat) : foundCount fullBios nids = nids.length := by
  simp [foundCount, fullBios]

theorem loadElem_set_self {α : Type} (a : List α) (i : Int) (v : α)
    (h0 : 0 ≤ i) (h1 : i < (a.length : Int)) :
    loadElem (a.set i.toNat v) i = some v := by
  have h : i.toNat < a.length := by omega
  simp [loadElem, h0, h]

theorem next_sid_of_count (bios : BiosEnv) (nids : List Nat)
    (hk : foundCount bios nids < 2147483648) :
    wrapInt32 ((RegisterSyscalls bios R4000Cpu.ctor nids)._lastSyscall + 1)
      = (foundCount bios nids : Int) := by
  rw [(RegisterSyscalls_ctor bios nids).2]
  unfold wrapInt32
  omega

theorem RegisterSyscall_dense_sids_aux (bios : BiosEnv) (nids : List Nat) (nid : Nat)
    (f : BiosFunction) (hf : bios.FindFunction nid = some f)
    (hk : foundCount bios nids < 1024) :
    (RegisterSyscall bios (RegisterSyscalls bios R4000Cpu.ctor nids) nid).2
      = Outcome.returned (foundCount bios nids : Int) := by
  have hw := (RegisterSyscalls_ctor bios nids).1
  have hs := next_sid_of_count bios nids (by omega)
  rw [RegisterSyscall_found_in_range bios _ nid f hf hw (by rw [hs]; omega)
    (by rw [hs]; omega), hs]

/-- C1 (amended): starting from a freshly constructed CPU, after any sequence
of `RegisterSyscall` calls of which `k` found their NID, with `k < 1024`, the
next call whose NID is found (the `k+1`-th such call) returns `sid = k`, leaves
`_lastSyscall = k` and slot `k` of the syscall table holding the function found
for that NID; a call whose NID is not found returns -1 and leaves the CPU as it
was, so it consumes no SID. -/
theorem RegisterSyscall_dense_sids (bios : BiosEnv) (nids : List Nat) (nid : Nat)
    (f : BiosFunction) (hf : bios.FindFunction nid = some f)
    (hk : foundCount bios nids < 1024) :
    (RegisterSyscall bios (RegisterSyscalls bios R4000Cpu.ctor nids) nid).2
      = Outcome.returned (foundCount bios nids : Int) ∧
    loadElem (RegisterSyscall bios (RegisterSyscalls bios R4000Cpu.ctor nids) nid).1._syscalls
      (foundCount bios nids : Int) = some (some f) ∧
    (RegisterSyscall bios (RegisterSyscalls bios R4000Cpu.ctor nids) nid).1._lastSyscall
      = (foundCount bios nids : Int) ∧
    (∀ other, bios.FindFunction other = none →
      RegisterSyscall bios (RegisterSyscalls bios R4000Cpu.ctor nids) other
        = (RegisterSyscalls bios R4000Cpu.ctor nids, Outcome.returned (-1))) := by
  have hw := (RegisterSyscalls_ctor bios nids).1
  have hs := next_sid_of_count bios nids (by omega)
  have h0 : 0 ≤ wrapInt32 ((RegisterSyscalls bios R4000Cpu.ctor nids)._lastSyscall + 1) := by
    rw [hs]; omega
  have h1 : wrapInt32 ((RegisterSyscalls bios R4000Cpu.ctor nids)._lastSyscall + 1) < 1024 := by
    rw [hs]; omega
  rw [RegisterSyscall_found_in_range bios _ nid f hf hw h0 h1, hs]
  refine ⟨rfl, ?_, rfl, ?_⟩
  · exact loadElem_set_self _ _ _ (by omega) (by rw [hw.1]; omega)
  · intro other ho
    exact RegisterSyscall_not_found bios _ other ho

/-- Witness of C1 (amended): two found calls, then a third one. -/
theorem RegisterSyscall_dense_sids_witness :
    fullBios.FindFunction 30 = some 30 ∧ foundCount fullBios [10, 20] < 1024 ∧
    (RegisterSyscall fullBios (RegisterSyscalls fullBios R4000Cpu.ctor [10, 20]) 30).2
      = Outcome.returned (foundCount fullBios [10, 20] : Int) :=
  ⟨rfl, by decide,
    (RegisterSyscall_dense_sids fullBios [10, 20] 30 30 rfl (by decide)).1⟩

/-- C1 (as stated) fails: after 1024 calls that all found their NID, the
1025-th such call does not return `sid = 1024`; the store into the 1024-slot
table raises `IndexOutOfRangeException`. -/
theorem RegisterSyscall_1025th_found_throws :
    fullBios.FindFunction 0 = some 0 ∧
    foundCount fullBios (List.replicate 1024 0) = 1024 ∧
    (RegisterSyscall fullBios
        (RegisterSyscalls fullBios R4000Cpu.ctor (List.replicate 1024 0)) 0).2
      = Outcome.threw ManagedException.IndexOutOfRangeException ∧
    (RegisterSyscall fullBios
        (RegisterSyscalls fullBios R4000Cpu.ctor (List.replicate 1024 0)) 0).2
      ≠ Outcome.returned 1024 := by
  have hc : foundCount fullBios (List.replicate 1024 0) = 1024 := by
    rw [foundCount_fullBios, List.length_replicate]
  have hw := (RegisterSyscalls_ctor fullBios (List.replicate 1024 0)).1
  have hs := next_sid_of_count fullBios (List.replicate 1024 0) (by rw [hc]; norm_num)
  rw [hc] at hs
  have hr := RegisterSyscall_found_out_of_range fullBios _ 0 0 rfl hw
    (by rw [hs]; norm_num)
  refine ⟨rfl, hc, ?_, ?_⟩
  · rw [hr]
  · rw [hr]
    intro h
    cases h

/-- C2: `RegisterSyscall` returns -1 if and only if the NID is not found in the
function directory, and in that case the CPU (`_lastSyscall`, the syscall table
and both shim tables included) is exactly as before the call. -/
theorem RegisterSyscall_minus_one_iff_not_found (bios : BiosEnv) (cpu : R4000Cpu)
    (nid : Nat) :
    ((RegisterSyscall bios cpu nid).2 = Outcome.returned (-1)
      ↔ bios.FindFunction nid = none) ∧
    (bios.FindFunction nid = none →
      (RegisterSyscall bios cpu nid).1 = cpu ∧
      (RegisterSyscall bios cpu nid).1._lastSyscall = cpu._lastSyscall ∧
      (RegisterSyscall bios cpu nid).1._syscalls = cpu._syscalls ∧
      (RegisterSyscall bios cpu nid).1._syscallShims = cpu._syscallShims ∧
      (RegisterSyscall bios cpu nid).1._syscallShimsN = cpu._syscallShimsN) := by
  constructor
  · constructor
    · intro h
      cases hf : bios.FindFunction nid with
      | none => rfl
      | some f =>
        exfalso
        unfold RegisterSyscall at h
        simp only [hf] at h
        unfold storeElem at h
        split_ifs at h with h1 h2 h3
        · simp only [Outcome.returned.injEq] at h
          omega
    · intro h
      rw [RegisterSyscall_not_found bios cpu nid h]
  · intro h
    rw [RegisterSyscall_not_found bios cpu nid h]
    exact ⟨rfl, rfl, rfl, rfl, rfl⟩

/-- C3 (amended): on a CPU reached from the constructor by any sequence of
`RegisterSyscall` calls, a call that finds its NID and returns has a sid with
`0 <= sid < 1024` and has stored the function and both shims into that slot of
the 1024-slot tables; it does return while fewer than 1024 calls have found
their NID, and once 1024 (and fewer than 2^31) have, it raises
`IndexOutOfRangeException` instead and writes no slot of any table. -/
theorem RegisterSyscall_sid_within_table (bios : BiosEnv) (nids : List Nat) (nid : Nat)
    (f : BiosFunction) (hf : bios.FindFunction nid = some f) :
    (∀ sid, (RegisterSyscall bios (RegisterSyscalls bios R4000Cpu.ctor nids) nid).2
        = Outcome.returned sid →
      0 ≤ sid ∧ sid < 1024 ∧
      (RegisterSyscall bios (RegisterSyscalls bios R4000Cpu.ctor nids) nid).1._syscalls.length
        = 1024 ∧
      loadElem (RegisterSyscall bios (RegisterSyscalls bios R4000Cpu.ctor nids) nid).1._syscalls
        sid = some (some f) ∧
      loadElem
        (RegisterSyscall bios (RegisterSyscalls bios R4000Cpu.ctor nids) nid).1._syscallShims
        sid = some (some (bios.EmitShim f)) ∧
      loadElem
        (RegisterSyscall bios (RegisterSyscalls bios R4000Cpu.ctor nids) nid).1._syscallShimsN
        sid = some (bios.EmitShimN f)) ∧
    (foundCount bios nids < 1024 →
      ∃ sid, (RegisterSyscall bios (RegisterSyscalls bios R4000Cpu.ctor nids) nid).2
        = Outcome.returned sid) ∧
    (1024 ≤ foundCount bios nids → foundCount bios nids < 2147483648 →
      (RegisterSyscall bios (RegisterSyscalls bios R4000Cpu.ctor nids) nid).2
        = Outcome.threw ManagedException.IndexOutOfRangeException ∧
      (RegisterSyscall bios (RegisterSyscalls bios R4000Cpu.ctor nids) nid).1._syscalls
        = (RegisterSyscalls bios R4000Cpu.ctor nids)._syscalls ∧
      (RegisterSyscall bios (RegisterSyscalls bios R4000Cpu.ctor nids) nid).1._syscallShims
        = (RegisterSyscalls bios R4000Cpu.ctor nids)._syscallShims ∧
      (RegisterSyscall bios (RegisterSyscalls bios R4000Cpu.ctor nids) nid).1._syscallShimsN
        = (RegisterSyscalls bios R4000Cpu.ctor nids)._syscallShimsN) := by
  have hw := (RegisterSyscalls_ctor bios nids).1
  refine ⟨?_, ?_, ?_⟩
  · intro sid hret
    by_cases h : 0 ≤ wrapInt32 ((RegisterSyscalls bios R4000Cpu.ctor nids)._lastSyscall + 1) ∧
        wrapInt32 ((RegisterSyscalls bios R4000Cpu.ctor nids)._lastSyscall + 1) < 1024
    · rw [RegisterSyscall_found_in_range bios _ nid f hf hw h.1 h.2] at hret ⊢
      simp only [Outcome.returned.injEq] at hret
      subst hret
      refine ⟨h.1, h.2, ?_, ?_, ?_, ?_⟩
      · simp only [List.length_set]
        exact hw.1
      · exact loadElem_set_self _ _ _ h.1 (by rw [hw.1]; exact_mod_cast h.2)
      · exact loadElem_set_self _ _ _ h.1 (by rw [hw.2.1]; exact_mod_cast h.2)
      · exact loadElem_set_self _ _ _ h.1 (by rw [hw.2.2.1]; exact_mod_cast h.2)
    · rw [RegisterSyscall_found_out_of_range bios _ nid f hf hw h] at hret
      cases hret
  · intro hk
    exact ⟨_, (RegisterSyscall_dense_sids_aux bios nids nid f hf hk)⟩
  · intro h1 h2
    have hs := next_sid_of_count bios nids h2
    rw [RegisterSyscall_found_out_of_range bios _ nid f hf hw (by rw [hs]; omega)]
    exact ⟨rfl, rfl, rfl, rfl⟩

/-- Witness of C3 (amended): the third found call returns a sid. -/
theorem RegisterSyscall_sid_within_table_witness :
    fullBios.FindFunction 3 = some 3 ∧
    ∃ sid, (RegisterSyscall fullBios (RegisterSyscalls fullBios R4000Cpu.ctor [1, 2]) 3).2
      = Outcome.returned sid :=
  ⟨rfl, (RegisterSyscall_sid_within_table fullBios [1, 2] 3 3 rfl).2.1 (by decide)⟩

/-- C3 (as stated) fails: after 1030 calls that all found their NID, the next
call that finds its NID returns no sid at all, in range or otherwise: the
index 1030 is outside the 1024-slot table and the store raises
`IndexOutOfRangeException`. -/
theorem RegisterSyscall_sid_outside_table :
    fullBios.FindFunction 9 = some 9 ∧
    wrapInt32 ((RegisterSyscalls fullBios R4000Cpu.ctor (List.replicate 1030 7))._lastSyscall + 1)
      = 1030 ∧
    ¬ ∃ sid, (RegisterSyscall fullBios
        (RegisterSyscalls fullBios R4000Cpu.ctor (List.replicate 1030 7)) 9).2
      = Outcome.returned sid ∧ 0 ≤ sid ∧ sid < 1024 := by
  have hc : foundCount fullBios (List.replicate 1030 7) = 1030 := by
    rw [foundCount_fullBios, List.length_replicate]
  have hw := (RegisterSyscalls_ctor fullBios (List.replicate 1030 7)).1
  have hs := next_sid_of_count fullBios (List.replicate 1030 7) (by rw [hc]; norm_num)
  rw [hc] at hs
  have hr := RegisterSyscall_found_out_of_range fullBios _ 9 9 rfl hw
    (by rw [hs]; norm_num)
  refine ⟨rfl, by rw [hs]; rfl, ?_⟩
  rintro ⟨sid, h, -, -⟩
  rw [hr] at h
  cases h

/-! ## R4000Cpu: setup -/

theorem SetupGame_ctor : SetupGame R4000Cpu.ctor = { R4000Cpu.ctor with _hasExecuted := true } :=
  rfl

theorem ContainsKey_append_single (d : Dictionary) (k v key : Nat) :
    Dictionary.ContainsKey (d ++ [(k, v)]) key
      = (Dictionary.ContainsKey d key || (k == key)) := by
  simp [Dictionary.ContainsKey, List.any_append]

theorem registerExportsLoop_eq (Exports : List StubExport) :
    ∀ d : Dictionary,
      ((Exports.filter (fun e => !e.IsSystem)).map StubExport.NID).Nodup →
      (∀ ex ∈ Exports, ex.IsSystem = false → Dictionary.ContainsKey d ex.NID = false) →
      registerExportsLoop d Exports =
        (d ++ (Exports.filter (fun e => !e.IsSystem)).map (fun e => (e.NID, e.Address)),
          true) := by
  induction Exports with
  | nil => intro d _ _; simp [registerExportsLoop]
  | cons ex rest ih =>
    intro d hnd hfresh
    cases hsys : ex.IsSystem with
    | true =>
      have hnd1 : ((rest.filter (fun e => !e.IsSystem)).map StubExport.NID).Nodup := by
        simpa [List.filter_cons, hsys] using hnd
      have := ih d hnd1 (fun e he hs => hfresh e (List.mem_cons_of_mem _ he) hs)
      simp [registerExportsLoop, hsys, this, List.filter_cons]
    | false =>
      have hnd0 : (ex.NID :: (rest.filter (fun e => !e.IsSystem)).map StubExport.NID).Nodup := by
        simpa [List.filter_cons, hsys] using hnd
      obtain ⟨hnot, hnd1⟩ := List.nodup_cons.mp hnd0
      have hk : Dictionary.ContainsKey d ex.NID = false :=
        hfresh ex (List.mem_cons_self _ _) hsys
      have hfresh1 : ∀ e ∈ rest, e.IsSystem = false →
          Dictionary.ContainsKey (d ++ [(ex.NID, ex.Address)]) e.NID = false := by
        intro e he hs
        rw [ContainsKey_append_single, hfresh e (List.mem_cons_of_mem _ he) hs]
        simp only [Bool.false_or, beq_eq_false_iff_ne, ne_eq]
        intro heq
        apply hnot
        rw [heq]
        exact List.mem_map.mpr ⟨e, List.mem_filter.mpr ⟨he, by simp [hs]⟩, rfl⟩
      have := ih (d ++ [(ex.NID, ex.Address)]) hnd1 hfresh1
      simp [registerExportsLoop, hsys, Dictionary.Add, hk, this, List.filter_cons]

theorem find_key_of_mem (l : List StubExport) (ex : StubExport)
    (hnd : (l.map StubExport.NID).Nodup) (hm : ex ∈ l) :
    (l.map (fun e => (e.NID, e.Address))).find? (fun p => p.1 == ex.NID)
      = some (ex.NID, ex.Address) := by
  induction l with
  | nil => cases hm
  | cons a rest ih =>
    rw [List.map_cons, List.nodup_cons] at hnd
    rcases List.mem_cons.mp hm with h | h
    · subst h
      simp [List.find?_cons]
    · have hne : a.NID ≠ ex.NID := by
        intro heq
        apply hnd.1
        rw [heq]
        exact List.mem_map.mpr ⟨ex, h, rfl⟩
      simp only [List.map_cons, List.find?_cons]
      have : (a.NID == ex.NID) = false := beq_eq_false_iff_ne.mpr hne
      simp only [this]
      exact ih hnd.2 h

theorem find_key_of_not_mem (l : List StubExport) (nid : Nat)
    (hm : ∀ ex ∈ l, ex.NID ≠ nid) :
    (l.map (fun e => (e.NID, e.Address))).find? (fun p => p.1 == nid) = none := by
  rw [List.find?_eq_none]
  intro p hp
  obtain ⟨e, he, rfl⟩ := List.mem_map.mp hp
  simpa using hm e he

/-- C4: starting from an empty user export table, after
`RegisterUserExports(module)` for a module whose non-system exports have
pairwise distinct NIDs, the call has returned, `LookupUserExport(nid)` returns
`ex.Address` when the module has a non-system export `ex` with `ex.NID = nid`,
and returns 0 for every other `nid`, among them the NIDs the module exports
only with `IsSystem = true`. -/
theorem LookupUserExport_after_RegisterUserExports (cpu : R4000Cpu)
    (Exports : List StubExport) (hempty : cpu._userExports = [])
    (hnd : ((Exports.filter (fun e => !e.IsSystem)).map StubExport.NID).Nodup) :
    (RegisterUserExports cpu Exports).2 = Outcome.returned () ∧
    (∀ ex ∈ Exports, ex.IsSystem = false →
      LookupUserExport (RegisterUserExports cpu Exports).1 ex.NID = ex.Address) ∧
    (∀ nid, (∀ ex ∈ Exports, ex.IsSystem = false → ex.NID ≠ nid) →
      LookupUserExport (RegisterUserExports cpu Exports).1 nid = 0) := by
  have hloop := registerExportsLoop_eq Exports [] hnd
    (fun _ _ _ => by simp [Dictionary.ContainsKey])
  have hnd1 : ((Exports.filter (fun e => !e.IsSystem)).map StubExport.NID).Nodup := hnd
  refine ⟨?_, ?_, ?_⟩
  · simp [RegisterUserExports, hempty, hloop]
  · intro ex hex hs
    have hm : ex ∈ Exports.filter (fun e => !e.IsSystem) :=
      List.mem_filter.mpr ⟨hex, by simp [hs]⟩
    have hf := find_key_of_mem _ ex hnd1 hm
    simp only [LookupUserExport, RegisterUserExports, hempty, hloop, List.nil_append,
      Dictionary.TryGetValue, hf, Option.map_some']
  · intro nid hnone
    have hf := find_key_of_not_mem (Exports.filter (fun e => !e.IsSystem)) nid
      (fun e he => hnone e (List.mem_filter.mp he).1 (by simpa using (List.mem_filter.mp he).2))
    simp only [LookupUserExport, RegisterUserExports, hempty, hloop, List.nil_append,
      Dictionary.TryGetValue, hf, Option.map_none']

/-- Witness of C4: a module with two user exports and one system export whose
NID repeats that of a user export. -/
theorem LookupUserExport_after_RegisterUserExports_witness :
    R4000Cpu.ctor._userExports = [] ∧
    ((([⟨1, 100, false⟩, ⟨2, 200, true⟩, ⟨3, 300, false⟩, ⟨1, 400, true⟩] :
        List StubExport).filter (fun e => !e.IsSystem)).map StubExport.NID).Nodup ∧
    (RegisterUserExports R4000Cpu.ctor
      [⟨1, 100, false⟩, ⟨2, 200, true⟩, ⟨3, 300, false⟩, ⟨1, 400, true⟩]).2
      = Outcome.returned () :=
  ⟨rfl, by decide,
    (LookupUserExport_after_RegisterUserExports R4000Cpu.ctor
      [⟨1, 100, false⟩, ⟨2, 200, true⟩, ⟨3, 300, false⟩, ⟨1, 400, true⟩] rfl (by decide)).1⟩

end Noxa
